import Mathlib

/-! Community connectors: GitHub and Jira.

A shallow embedding of the GitHub connector (`src/github/src/main.ts`) and of
the JQL assembly and the fetch loop of the Jira connector
(`src/jira/src/getData.js`), followed by the theorems about them.

Modelling conventions.

* A JavaScript value that the connectors pass around is a `JSValue`.  An object
  used as a string-keyed map (`Variables`) is a function from keys to values in
  which `JSValue.undefined` stands for an absent key: property reads and
  `JSON.stringify` do not tell the two apart.
* Strings are sequences of characters; the timestamps and identifiers handled
  here are ASCII, so that a character is one UTF-16 code unit.
* A thrown exception is the `Except.error` result of a function.
* `getPage` is the network: the `i`-th call made by one fetch is answered by
  `responses i`.  Whatever a server bases an answer on, one run of the
  deterministic loop sees one such sequence.
-/

namespace GitHub

/-! ## Values, query variables and page results -/

/-- The JavaScript values that occur in query variables and in rows. -/
inductive JSValue where
  | undefined
  | null
  | bool (b : Bool)
  | str (s : String)
  | num (n : Int)
  deriving DecidableEq, Repr

/-- The `Variables` object sent with every query: `organization`,
`repository`, the boolean toggles and the three pagination pointers, and
whatever further key `getVariables` writes into it. -/
abbrev Variables := String → JSValue

/-- The assignment `variables[key] = value`. -/
def Variables.set (vars : Variables) (key : String) (value : JSValue) : Variables :=
  fun k => if k = key then value else vars k

/-- The interface `PageInfo`; `endCursor` is a string, `null`, or missing. -/
structure PageInfo where
  endCursor : JSValue
  hasNextPage : Bool
  deriving DecidableEq, Repr

/-- An element of `labels.nodes`. -/
structure Label where
  name : String
  deriving DecidableEq, Repr

/-- The number of an issue or pull request.  GraphQL sends it as an `Int`;
the model admits the safe integers of JavaScript (`Number.isSafeInteger`), of
absolute value below `2 ^ 53`: each of them is a JavaScript number, and
`'' + n` writes it as its decimal numeral. -/
structure IssueNumber where
  val : Int
  safe : val.natAbs < 2 ^ 53
  deriving DecidableEq, Repr

/-- An element of `IssueResult.nodes`.  Every property is optional in the
interface; `none` is a missing property.  `author` holds `author.login`,
`labels` holds `labels.nodes`, `milestone` holds `milestone.title` and
`comments` holds `comments.totalCount`. -/
structure IssueNode where
  is_pull_request : Option Bool := none
  number : Option IssueNumber := none
  title : Option String := none
  closed : Option Bool := none
  url : Option String := none
  author : Option String := none
  labels : Option (List Label) := none
  milestone : Option String := none
  locked : Option Bool := none
  comments : Option Int := none
  created_at : Option String := none
  closed_at : Option String := none
  deriving DecidableEq, Repr

/-- The interface `IssueResult`, used for issues and for pull requests. -/
structure IssueResult where
  totalCount : Nat
  pageInfo : PageInfo
  nodes : List IssueNode
  deriving DecidableEq, Repr

/-- An element of `StarResult.nodes`. -/
structure StarNode where
  createdAt : String
  deriving DecidableEq, Repr

/-- The interface `StarResult`. -/
structure StarResult where
  totalCount : Nat
  pageInfo : PageInfo
  nodes : List StarNode
  deriving DecidableEq, Repr

/-- The interface `QueryResult`, reduced to `data.organization.repository`:
each of the three resources is present or missing. -/
structure QueryResult where
  issues : Option IssueResult := none
  pullRequests : Option IssueResult := none
  stargazers : Option StarResult := none
  deriving DecidableEq, Repr

/-! ## The pager: `graphqlFetch` -/

/-- The local `maxPages` of `graphqlFetch`. -/
def maxPages : Nat := 10

/-- The state of the `while` loop of `graphqlFetch`.  `sent` is not a variable
of the source: it records, in order, the variable map that each call of
`getPage` carried.  `vars` is the object `variables`. -/
structure FetchState where
  vars : Variables
  hasNextPage : Bool
  currentPage : Nat
  data : List QueryResult
  sent : List Variables

/-- The `forEach` over `pullRequests.nodes`: `pr.is_pull_request = true`. -/
def markPullRequests (response : QueryResult) : QueryResult :=
  { response with
    pullRequests := response.pullRequests.map fun pullRequestData =>
      { pullRequestData with
        nodes := pullRequestData.nodes.map fun pr => { pr with is_pull_request := some true } } }

/-- The block `if (starData !== undefined)`, on the pair of `hasNextPage` and
`variables`. -/
def onStargazers (response : QueryResult) (s : Bool × Variables) : Bool × Variables :=
  match response.stargazers with
  | some starData =>
    (starData.pageInfo.hasNextPage, s.2.set "star_gazer_pointer" starData.pageInfo.endCursor)
  | none => s

/-- The block `if (issueData !== undefined)`. -/
def onIssues (response : QueryResult) (s : Bool × Variables) : Bool × Variables :=
  match response.issues with
  | some issueData =>
    let vars := s.2.set "issues_pointer" issueData.pageInfo.endCursor
    (issueData.pageInfo.hasNextPage,
      if vars "issues_pointer" = JSValue.null then
        vars.set "issues" (JSValue.bool false)
      else vars)
  | none => s

/-- The block `if (pullRequestData !== undefined)`, the marking of the nodes
apart.  The test reads `variables.issues_pointer`, as the source does. -/
def onPullRequests (response : QueryResult) (s : Bool × Variables) : Bool × Variables :=
  match response.pullRequests with
  | some pullRequestData =>
    let vars := s.2.set "pull_requests_pointer" pullRequestData.pageInfo.endCursor
    (pullRequestData.pageInfo.hasNextPage,
      if vars "issues_pointer" = JSValue.null then
        vars.set "issues" (JSValue.bool false)
      else vars)
  | none => s

/-- One run of the body of the `while` loop. -/
def fetchIteration (responses : Nat → QueryResult) (st : FetchState) : FetchState :=
  let response := responses st.currentPage
  let s := onPullRequests response (onIssues response (onStargazers response
    (st.hasNextPage, st.vars)))
  { vars := s.2
    hasNextPage := s.1
    currentPage := st.currentPage + 1
    data := st.data ++ [markPullRequests response]
    sent := st.sent ++ [st.vars] }

/-- The `while (hasNextPage && currentPage < maxPages)` loop, run for at most
`fuel` iterations. -/
def fetchLoop (responses : Nat → QueryResult) : Nat → FetchState → FetchState
  | 0, st => st
  | fuel + 1, st =>
    if st.hasNextPage = true ∧ st.currentPage < maxPages then
      fetchLoop responses fuel (fetchIteration responses st)
    else st

/-- The state in which `graphqlFetch` enters its loop. -/
def fetchStart (vars : Variables) : FetchState :=
  { vars := vars, hasNextPage := true, currentPage := 0, data := [], sent := [] }

/-- The state in which `graphqlFetch` leaves its loop; `maxPages` iterations
are all the loop can make (`fetchRun_stable`). -/
def fetchRun (vars : Variables) (responses : Nat → QueryResult) : FetchState :=
  fetchLoop responses maxPages (fetchStart vars)

/-- The function `graphqlFetch`: the list `data`. -/
def graphqlFetch (vars : Variables) (responses : Nat → QueryResult) : List QueryResult :=
  (fetchRun vars responses).data

/-- The requests of one `graphqlFetch`: the variable map of each call of
`getPage`, in order. -/
def requestsSent (vars : Variables) (responses : Nat → QueryResult) : List Variables :=
  (fetchRun vars responses).sent

/-- The state after `k` runs of the loop body, whether or not the loop makes
that many. -/
def fetchAfter (vars : Variables) (responses : Nat → QueryResult) : Nat → FetchState
  | 0 => fetchStart vars
  | k + 1 => fetchIteration responses (fetchAfter vars responses k)

end GitHub

namespace GitHub

/-! ## Concrete servers used by the examples -/

/-- A variable map with both resource toggles on, as a request for issue
fields and one for star fields would set them. -/
def togglesOn : Variables :=
  fun k => if k = "issues" then JSValue.bool true
    else if k = "stars" then JSValue.bool true else JSValue.undefined

/-- A server whose every reply holds stargazers only, with a `null` end cursor
and `hasNextPage` true. -/
def nullStarServer : Nat → QueryResult :=
  fun _ => { stargazers := some ⟨0, ⟨JSValue.null, true⟩, []⟩ }

/-- A server whose every reply holds issues only, with a `null` end cursor
and `hasNextPage` true. -/
def nullIssueServer : Nat → QueryResult :=
  fun _ => { issues := some ⟨0, ⟨JSValue.null, true⟩, []⟩ }

/-- A repository with three issues and one pull request, one record a page:
the first reply says that more issues follow and that no pull request
does. -/
def threeIssuesOnePull : Nat → QueryResult :=
  fun _ =>
    { issues := some ⟨3, ⟨JSValue.str "Y3Vyc29yOjE", true⟩, [{ number := some ⟨1, by decide⟩ }]⟩
      pullRequests := some ⟨1, ⟨JSValue.str "Y3Vyc29yOjI", false⟩, [{ number := some ⟨2, by decide⟩ }]⟩ }

end GitHub

namespace GitHub

/-! ## Fields, `getGroup`, `getVariables` -/

/-- The interface `GHConfigParams`. -/
structure GHConfigParams where
  organization : String
  repository : String
  deriving DecidableEq, Repr

/-- The `FieldType` values that `getFields` uses. -/
inductive FieldType where
  | TEXT
  | BOOLEAN
  | URL
  | NUMBER
  | YEAR_MONTH_DAY_HOUR
  deriving DecidableEq, Repr

/-- A field of the host's `Fields` object, with what `getFields` sets on it
but the description: `metric` is true for `newMetric()`, false for
`newDimension()`. -/
structure Field where
  id : String
  name : String
  group : String
  type : FieldType
  metric : Bool := false
  deriving DecidableEq, Repr

/-- The global `ISSUES`. -/
def ISSUES : String := "issues"

/-- The global `STARS`. -/
def STARS : String := "stargazers"

/-- The fields that `getFields` declares, in its order. -/
def getFields : List Field :=
  [ { id := "number", name := "Number", group := ISSUES, type := FieldType.TEXT },
    { id := "title", name := "Title", group := ISSUES, type := FieldType.TEXT },
    { id := "open", name := "Is Open", group := ISSUES, type := FieldType.BOOLEAN },
    { id := "url", name := "Issue URL", group := ISSUES, type := FieldType.URL },
    { id := "reporter", name := "Reporter", group := ISSUES, type := FieldType.TEXT },
    { id := "label", name := "Label", group := ISSUES, type := FieldType.TEXT },
    { id := "milestone", name := "Milestone", group := ISSUES, type := FieldType.TEXT },
    { id := "locked", name := "Is Locked", group := ISSUES, type := FieldType.BOOLEAN },
    { id := "num_comments", name := "Number of Comments", group := ISSUES,
      type := FieldType.NUMBER, metric := true },
    { id := "is_pull_request", name := "Is Pull Request", group := ISSUES,
      type := FieldType.BOOLEAN },
    { id := "created_at", name := "Creation Time", group := ISSUES,
      type := FieldType.YEAR_MONTH_DAY_HOUR },
    { id := "closed_at", name := "Close Time", group := ISSUES,
      type := FieldType.YEAR_MONTH_DAY_HOUR },
    { id := "starred_at", name := "Starred Date", group := STARS,
      type := FieldType.YEAR_MONTH_DAY_HOUR },
    { id := "stars", name := "Stars", group := STARS, type := FieldType.NUMBER,
      metric := true } ]

/-- What the connector throws: a user error made with `cc.newUserError()`
(its text, and its debug text when one is set), or the `TypeError` of
JavaScript for reading `property` of `undefined`. -/
inductive ConnectorError where
  | userError (text : String) (debugText : Option String)
  | typeError (property : String)
  deriving DecidableEq, Repr

deriving instance DecidableEq for Except

/-- The text of the user error of `getGroup` for fields of two groups. -/
def sameGroupText (group other : String) : String :=
  "You can only choose fields in the same group. You chose fields from \"" ++ group
    ++ "\" and \"" ++ other ++ "\""

/-- The `for` loop of `getGroup`, `group` being the local variable (`none` is
`undefined`).  `!group` holds for `undefined` and for the empty string. -/
def getGroupLoop : Option String → List Field → Except ConnectorError (Option String)
  | group, [] => Except.ok group
  | group, field :: rest =>
    if group = none ∨ group = some "" then
      getGroupLoop (some field.group) rest
    else if group ≠ some field.group then
      Except.error (ConnectorError.userError (sameGroupText (group.getD "") field.group) none)
    else
      getGroupLoop group rest

/-- The function `getGroup`. -/
def getGroup (requestedFields : List Field) : Except ConnectorError String :=
  match getGroupLoop none requestedFields with
  | Except.error e => Except.error e
  | Except.ok group =>
    if group = some "stargazers" ∨ group = some "issues" then
      Except.ok (group.getD "")
    else
      Except.error (ConnectorError.userError
        ("Group: " ++ group.getD "undefined" ++ " is not supported") none)

/-- The object `configParams` read as a variable map. -/
def configVariables (configParams : GHConfigParams) : Variables :=
  fun k =>
    if k = "organization" then JSValue.str configParams.organization
    else if k = "repository" then JSValue.str configParams.repository
    else JSValue.undefined

/-- The function `getVariables`. -/
def getVariables (group : String) (configParams : GHConfigParams)
    (requestedFields : List Field) : Variables :=
  requestedFields.foldl (fun vars field => vars.set field.id (JSValue.bool true))
    ((configVariables configParams).set group (JSValue.bool true))

/-- The function `validateConfig`; the empty string is what `!` rejects. -/
def validateConfig (config : GHConfigParams) : Except ConnectorError Bool :=
  if config.organization = "" then
    Except.error (ConnectorError.userError "Organization cannot be left blank." none)
  else if config.repository = "" then
    Except.error (ConnectorError.userError "Repository cannot be left blank." none)
  else Except.ok true

/-! ## The row mapper -/

/-- The method `slice(a, b)` of a string, for `a` and `b` not negative. -/
def slice (s : String) (a b : Nat) : String :=
  ⟨(s.data.take b).drop a⟩

/-- The function `formatDate`. -/
def formatDate (date : String) : String :=
  slice date 0 4 ++ slice date 5 7 ++ slice date 8 10 ++ slice date 11 13

/-- A `GetDataRow`: the object `{values: row}`. -/
structure GetDataRow where
  values : List JSValue
  deriving DecidableEq, Repr

/-- The method `map` of an array with a callback that may throw: the elements
are visited in order and the first exception ends the call. -/
def arrayMap {α β : Type} (f : α → Except ConnectorError β) :
    List α → Except ConnectorError (List β)
  | [] => Except.ok []
  | a :: rest =>
    match f a with
    | Except.error e => Except.error e
    | Except.ok b =>
      match arrayMap f rest with
      | Except.error e => Except.error e
      | Except.ok bs => Except.ok (b :: bs)

/-- A property that may be missing, as a value. -/
def optValue {α : Type} (f : α → JSValue) : Option α → JSValue
  | none => JSValue.undefined
  | some a => f a

/-- The user error of the `default` case of `issueResultsToGetDataRows`. -/
def cannotUse (id : String) : ConnectorError :=
  ConnectorError.userError ("You cannot use " ++ id ++ " yet.")
    (some ("Field \"" ++ id ++ "\" has not been accounted for in code yet."))

/-- The `switch` of `issueResultsToGetDataRows` on the id of a requested
field.  `'' + issue.number` is the decimal numeral of the number, a safe
integer (`IssueNumber`), and `"undefined"` for a missing number. -/
def issueValue (issue : IssueNode) (id : String) : Except ConnectorError JSValue :=
  match id with
  | "open" => Except.ok (JSValue.bool (!(issue.closed.getD false)))
  | "reporter" =>
    match issue.author with
    | none => Except.error (ConnectorError.typeError "login")
    | some login => Except.ok (JSValue.str login)
  | "num_comments" =>
    match issue.comments with
    | none => Except.error (ConnectorError.typeError "totalCount")
    | some totalCount => Except.ok (JSValue.num totalCount)
  | "is_pull_request" => Except.ok (JSValue.bool issue.is_pull_request.isSome)
  | "created_at" =>
    match issue.created_at with
    | none => Except.error (ConnectorError.typeError "slice")
    | some date => Except.ok (JSValue.str (formatDate date))
  | "closed_at" =>
    match issue.closed_at with
    | none => Except.error (ConnectorError.typeError "slice")
    | some date => Except.ok (JSValue.str (formatDate date))
  | "url" => Except.ok (optValue JSValue.str issue.url)
  | "number" =>
    Except.ok (JSValue.str (match issue.number with
      | none => "undefined"
      | some n => toString n.val))
  | "locked" => Except.ok (optValue JSValue.bool issue.locked)
  | "title" => Except.ok (optValue JSValue.str issue.title)
  | "label" =>
    match issue.labels with
    | none => Except.error (ConnectorError.typeError "nodes")
    | some nodes => Except.ok (JSValue.str (", ".intercalate (nodes.map fun label => label.name)))
  | "milestone" =>
    match issue.milestone with
    | none => Except.error (ConnectorError.typeError "title")
    | some title => Except.ok (JSValue.str title)
  | _ => Except.error (cannotUse id)

/-- The row of one issue: the callback of `issueResult.nodes.map`. -/
def issueRow (requestedFields : List Field) (issue : IssueNode) :
    Except ConnectorError GetDataRow :=
  match arrayMap (fun requestedField => issueValue issue requestedField.id) requestedFields with
  | Except.error e => Except.error e
  | Except.ok row => Except.ok { values := row }

/-- The `for` loop of `issueResultsToGetDataRows`, `rows` being the local
variable.  An element of the array may be `undefined` (`none`), which
`toGetDataRows` can put there; reading its `nodes` is a `TypeError`. -/
def issueResultsLoop (requestedFields : List Field) :
    List GetDataRow → List (Option IssueResult) → Except ConnectorError (List GetDataRow)
  | rows, [] => Except.ok rows
  | _, none :: _ => Except.error (ConnectorError.typeError "nodes")
  | rows, some issueResult :: rest =>
    match arrayMap (issueRow requestedFields) issueResult.nodes with
    | Except.error e => Except.error e
    | Except.ok more => issueResultsLoop requestedFields (rows ++ more) rest

/-- The function `issueResultsToGetDataRows`. -/
def issueResultsToGetDataRows (issueResults : List (Option IssueResult))
    (requestedFields : List Field) : Except ConnectorError (List GetDataRow) :=
  issueResultsLoop requestedFields [] issueResults

/-- The `switch` of `starResultsToGetDataRows` on the id of a requested
field. -/
def starValue (stars : StarNode) (id : String) : JSValue :=
  match id with
  | "stars" => JSValue.num 1
  | "starred_at" => JSValue.str (formatDate stars.createdAt)
  | _ => JSValue.null

/-- The function `starResultsToGetDataRows`; nothing in it throws. -/
def starResultsToGetDataRows (starResults : List StarResult) (requestedFields : List Field) :
    List GetDataRow :=
  starResults.foldl
    (fun rows starResult => rows ++ starResult.nodes.map fun stars =>
      { values := requestedFields.map fun requestedField => starValue stars requestedField.id })
    []

/-- The second `for` loop of `toGetDataRows`.  Its first test reads the array
`issueResults`, which is always truthy, so `queryResult...issues` is appended
also when it is `undefined`; the pull requests are appended when present. -/
def collectIssueResults (queryResults : List QueryResult) : List (Option IssueResult) :=
  queryResults.foldl
    (fun issueResults queryResult =>
      let issueResults := issueResults ++ [queryResult.issues]
      match queryResult.pullRequests with
      | some pullRequests => issueResults ++ [some pullRequests]
      | none => issueResults)
    []

/-- The first `for` loop of `toGetDataRows`: the stargazers that are present. -/
def collectStarResults (queryResults : List QueryResult) : List StarResult :=
  queryResults.foldl
    (fun starResults queryResult =>
      match queryResult.stargazers with
      | some stargazers => starResults ++ [stargazers]
      | none => starResults)
    []

/-- The function `toGetDataRows`. -/
def toGetDataRows (queryResults : List QueryResult) (requestedFields : List Field) :
    Except ConnectorError (List GetDataRow) :=
  match queryResults with
  | [] => Except.ok []
  | first :: _ =>
    if first.stargazers.isSome then
      Except.ok (starResultsToGetDataRows (collectStarResults queryResults) requestedFields)
    else if first.issues.isSome ∨ first.pullRequests.isSome then
      issueResultsToGetDataRows (collectIssueResults queryResults) requestedFields
    else Except.ok []

/-- The function `getData`, from the requested fields that
`getFields().forIds(...)` hands it: the requests sent, and the rows or the
exception.  The `schema` of the result, built by the host, is left out. -/
def getData (configParams : GHConfigParams) (requestedFields : List Field)
    (responses : Nat → QueryResult) :
    List Variables × Except ConnectorError (List GetDataRow) :=
  match validateConfig configParams with
  | Except.error e => ([], Except.error e)
  | Except.ok _ =>
    match getGroup requestedFields with
    | Except.error e => ([], Except.error e)
    | Except.ok group =>
      let vars := getVariables group configParams requestedFields
      (requestsSent vars responses, toGetDataRows (graphqlFetch vars responses) requestedFields)

end GitHub

namespace GitHub

/-! ## Field ids with an extraction rule, and the data of the examples -/

/-- The ids that the `switch` of `issueResultsToGetDataRows` has a `case`
for. -/
def issueFieldIds : List String :=
  ["open", "reporter", "num_comments", "is_pull_request", "created_at", "closed_at", "url",
    "number", "locked", "title", "label", "milestone"]

/-- The fields `number` and `starred_at` of `getFields`: one of the group
`issues`, one of the group `stargazers`. -/
def numberAndStarredAt : List Field :=
  getFields.filter fun f => f.id = "number" ∨ f.id = "starred_at"

/-- The fields `number`, `title`, `open` of `getFields`, in this order. -/
def numberTitleOpen : List Field :=
  getFields.take 3

/-- A field with the id `foo`, for which no function has a rule. -/
def fooField : Field :=
  { id := "foo", name := "Foo", group := ISSUES, type := FieldType.TEXT }

/-- The issue `{number: 42, title: "Bug", closed: false}`. -/
def bugIssue : IssueNode :=
  { number := some ⟨42, by decide⟩, title := some "Bug", closed := some false }

/-- A page of issues that holds `bugIssue` alone. -/
def bugPage : IssueResult :=
  ⟨1, ⟨JSValue.str "Y3Vyc29yOjE", false⟩, [bugIssue]⟩

/-- A page of stargazers that holds one star. -/
def starPage : StarResult :=
  ⟨1, ⟨JSValue.str "Y3Vyc29yOjE", false⟩, [⟨"2020-12-01T09:05:33Z"⟩]⟩

/-- A config that `validateConfig` accepts. -/
def sampleConfig : GHConfigParams :=
  ⟨"googledatastudio", "community-connectors"⟩

/-- A repository without issues and with two pull requests, asked for the
field `number`.  The first reply holds the empty issues (end cursor `null`)
and the first pull request, which has a successor; `graphqlFetch` then sets
`issues` to false, and as this variable gates issues and pull requests alike,
every later reply holds neither. -/
def noIssuesTwoPulls : Nat → QueryResult
  | 0 =>
    { issues := some ⟨0, ⟨JSValue.null, false⟩, []⟩
      pullRequests := some ⟨2, ⟨JSValue.str "Y3Vyc29yOjE", true⟩, [{ number := some ⟨7, by decide⟩ }]⟩ }
  | _ + 1 => {}

end GitHub

namespace Jira

/-! ## The Jira connector: the JQL of `getData` -/

/-- What `getData` reads of `request.configParams` for the query.  `none` is
a property that is missing or `null`. -/
structure ConfigParams where
  host : String
  dateForQuery : String
  projects : Option String
  additionalQuery : Option String
  deriving DecidableEq, Repr

/-- The object `request.dateRange`. -/
structure DateRange where
  startDate : String
  endDate : String
  deriving DecidableEq, Repr

/-- The function `hasValue`: the value is none of `''`, `null`,
`undefined`. -/
def hasValue (value : Option String) : Bool :=
  match value with
  | none => false
  | some s => s != ""

/-- The array `jql` of `getData`. -/
def jql (configParams : ConfigParams) (dateRange : DateRange) : List String :=
  [ if configParams.dateForQuery ≠ "none" then
      configParams.dateForQuery ++ " >= " ++ dateRange.startDate ++ " AND "
        ++ configParams.dateForQuery ++ " <= " ++ dateRange.endDate
    else "",
    if configParams.dateForQuery ≠ "none" then "AND " else "",
    if hasValue configParams.projects then
      "project in (" ++ configParams.projects.getD "" ++ ")"
    else "",
    if hasValue configParams.projects && hasValue configParams.additionalQuery then "AND "
    else "",
    if hasValue configParams.additionalQuery then configParams.additionalQuery.getD ""
    else "" ]

/-- The expression `jql.join('+')`. -/
def jqlJoined (configParams : ConfigParams) (dateRange : DateRange) : String :=
  "+".intercalate (jql configParams dateRange)

/-- The array `url` of `getData`, joined, before `encodeURI`. -/
def searchUrl (configParams : ConfigParams) (dateRange : DateRange) (startAt : Nat) : String :=
  "".intercalate
    [ "https://", configParams.host, "/rest/api/3/search?", "jql=",
      jqlJoined configParams dateRange, "&maxResults=100", "&startAt=", toString startAt ]

/-- The method `includes` of a string: `part` occurs in `s`. -/
def includes (s part : String) : Bool :=
  s.data.tails.any fun rest => part.data.isPrefixOf rest

/-- The request of the scenario: date filter `created`, the range from
2021-01-01 to 2021-01-31, the projects `ABC,DEF`, the additional query
`status = Done`. -/
def doneInJanuary : ConfigParams :=
  { host := "example.atlassian.net", dateForQuery := "created", projects := some "ABC,DEF",
    additionalQuery := some "status = Done" }

/-- The date range of the scenario. -/
def january : DateRange :=
  { startDate := "2021-01-01", endDate := "2021-01-31" }

end Jira

namespace GitHub

/-! ## The include variables of `BASE_QUERY_STRING` -/

/-- The variable of `BASE_QUERY_STRING` that gates a resource, by the group of
the requested fields: `issues` and `pullRequests` carry
`@include(if: $issues)`, `stargazers` carries `@include(if: $stars)`.  Both
variables are declared `Boolean = false`. -/
def resourceVariable (group : String) : String :=
  if group = STARS then "stars" else "issues"

/-- The variable of `BASE_QUERY_STRING` that gates what the `switch` of
`issueResultsToGetDataRows` reads for a field id: `issue.closed` for `open`
(`closed @include(if: $closed)`), `issue.author` for `reporter`,
`issue.labels` for `label`, `issue.comments` for `num_comments`, and the
variable of the same name for `number`, `title`, `url`, `locked`, `milestone`,
`created_at`, `closed_at`.  `is_pull_request` is set by `graphqlFetch`, and the
fields of the stargazers have no variable but that of the resource. -/
def includeVariable (id : String) : Option String :=
  match id with
  | "number" => some "number"
  | "title" => some "title"
  | "open" => some "closed"
  | "url" => some "url"
  | "reporter" => some "author"
  | "label" => some "labels"
  | "milestone" => some "milestone"
  | "locked" => some "locked"
  | "num_comments" => some "comments"
  | "created_at" => some "created_at"
  | "closed_at" => some "closed_at"
  | _ => none

/-- The field `starred_at` of `getFields`, requested alone. -/
def starredAtOnly : List Field :=
  getFields.filter fun f => f.id = "starred_at"

/-- The fields `open`, `reporter`, `label`, `num_comments` of `getFields`. -/
def openReporterLabelComments : List Field :=
  getFields.filter fun f => f.id ∈ ["open", "reporter", "label", "num_comments"]

end GitHub

namespace Jira

/-! ## The Jira connector: the fetch loop of `getData` -/

/-- What `getData` reads of a parsed search response. -/
structure SearchResponse (α : Type) where
  issues : List α
  total : Nat
  maxResults : Nat

/-- The variables of the `do ... while` loop of `getData`; `total` starts as
`null` (`none`).  `requested` is not a variable of the source: it records, in
order, the `startAt` of each request. -/
structure SearchState (α : Type) where
  startAt : Nat
  total : Option Nat
  issues : List α
  requested : List Nat

/-- One run of the body of the loop.  Within one `getData` the URL changes
only in `startAt`, so the server is a function of it. -/
def searchIteration {α : Type} (server : Nat → SearchResponse α) (st : SearchState α) :
    SearchState α :=
  let parsedResponse := server st.startAt
  { startAt := st.startAt + parsedResponse.maxResults
    total := some parsedResponse.total
    issues := st.issues ++ parsedResponse.issues
    requested := st.requested ++ [st.startAt] }

/-- The loop `do { ... } while (startAt <= total)`, run for at most `fuel`
iterations; `none` when the fuel does not suffice.  In a comparison `null`
counts as 0. -/
def searchLoop {α : Type} (server : Nat → SearchResponse α) :
    Nat → SearchState α → Option (SearchState α)
  | 0, _ => none
  | fuel + 1, st =>
    let next := searchIteration server st
    if next.startAt ≤ next.total.getD 0 then searchLoop server fuel next else some next

/-- The state in which `getData` enters the loop. -/
def searchStart {α : Type} : SearchState α :=
  { startAt := 0, total := none, issues := [], requested := [] }

/-- A server that holds the issues `all` and sends pages of `m`: a request at
`startAt` gets the issues at the positions from `startAt` up to, and without,
`min (startAt + m) all.length`. -/
def pagedServer {α : Type} (all : List α) (m : Nat) : Nat → SearchResponse α :=
  fun startAt => { issues := (all.drop startAt).take m, total := all.length, maxResults := m }

end Jira

namespace GitHub

/-! ## The pager: how the loop runs -/

theorem fetchAfter_currentPage (vars : Variables) (responses : Nat → QueryResult) (k : Nat) :
    (fetchAfter vars responses k).currentPage = k := by
  induction k with
  | zero => rfl
  | succ k ih => simp [fetchAfter, fetchIteration, ih]

theorem fetchAfter_data (vars : Variables) (responses : Nat → QueryResult) (k : Nat) :
    (fetchAfter vars responses k).data
      = (List.range k).map fun i => markPullRequests (responses i) := by
  induction k with
  | zero => rfl
  | succ k ih =>
    simp [fetchAfter, fetchIteration, ih, List.range_succ, fetchAfter_currentPage]

theorem fetchAfter_sent (vars : Variables) (responses : Nat → QueryResult) (k : Nat) :
    (fetchAfter vars responses k).sent
      = (List.range k).map fun i => (fetchAfter vars responses i).vars := by
  induction k with
  | zero => rfl
  | succ k ih => simp [fetchAfter, fetchIteration, ih, List.range_succ]

/-- The flag `hasNextPage` after one more run of the body: the last resource
present in the response, in the order stargazers, issues, pull requests, sets
it; a response without any of them leaves it as it was. -/
theorem fetchAfter_hasNextPage_succ (vars : Variables) (responses : Nat → QueryResult)
    (k : Nat) :
    (fetchAfter vars responses (k + 1)).hasNextPage
      = match (responses k).pullRequests, (responses k).issues, (responses k).stargazers with
        | some pullRequestData, _, _ => pullRequestData.pageInfo.hasNextPage
        | none, some issueData, _ => issueData.pageInfo.hasNextPage
        | none, none, some starData => starData.pageInfo.hasNextPage
        | none, none, none => (fetchAfter vars responses k).hasNextPage := by
  simp only [fetchAfter, fetchIteration, fetchAfter_currentPage, onPullRequests, onIssues,
    onStargazers]
  cases (responses k).pullRequests <;> cases (responses k).issues <;>
    cases (responses k).stargazers <;> rfl

/-- The loop of `fetchLoop`, from a state reached after `c` iterations: it
makes `n` more, each entered with the loop condition true, and stops either
because the fuel is used up or because the condition is false. -/
theorem fetchLoop_spec (vars : Variables) (responses : Nat → QueryResult) (fuel c : Nat) :
    ∃ n, n ≤ fuel ∧
      fetchLoop responses fuel (fetchAfter vars responses c) = fetchAfter vars responses (c + n) ∧
      (∀ j, j < n → (fetchAfter vars responses (c + j)).hasNextPage = true ∧ c + j < maxPages) ∧
      (n = fuel ∨ ¬ ((fetchAfter vars responses (c + n)).hasNextPage = true ∧ c + n < maxPages)) := by
  induction fuel generalizing c with
  | zero => exact ⟨0, le_refl _, rfl, fun j hj => absurd hj (Nat.not_lt_zero j), Or.inl rfl⟩
  | succ fuel ih =>
    by_cases hc : (fetchAfter vars responses c).hasNextPage = true ∧ c < maxPages
    · obtain ⟨n, hn, hrun, hbefore, hstop⟩ := ih (c + 1)
      refine ⟨n + 1, by omega, ?_, ?_, ?_⟩
      · have hcond : (fetchAfter vars responses c).hasNextPage = true ∧
            (fetchAfter vars responses c).currentPage < maxPages := by
          rw [fetchAfter_currentPage]; exact hc
        rw [fetchLoop, if_pos hcond]
        have : c + (n + 1) = c + 1 + n := by omega
        rw [this, ← hrun]; rfl
      · intro j hj
        cases j with
        | zero => exact hc
        | succ j =>
          have := hbefore j (by omega)
          have e : c + (j + 1) = c + 1 + j := by omega
          rw [e]; exact this
      · have e : c + (n + 1) = c + 1 + n := by omega
        rw [e]
        rcases hstop with h | h
        · exact Or.inl (by omega)
        · exact Or.inr h
    · refine ⟨0, Nat.zero_le _, ?_, fun j hj => absurd hj (Nat.not_lt_zero j), Or.inr hc⟩
      have hcond : ¬ ((fetchAfter vars responses c).hasNextPage = true ∧
          (fetchAfter vars responses c).currentPage < maxPages) := by
        rw [fetchAfter_currentPage]; exact hc
      rw [fetchLoop, if_neg hcond]; rfl

/-- The run of `graphqlFetch`: it makes `n ≤ maxPages` requests, the flag
`hasNextPage` is true before each of them, and with `n < maxPages` the flag is
false at the end. -/
theorem fetchRun_spec (vars : Variables) (responses : Nat → QueryResult) :
    ∃ n, n ≤ maxPages ∧ fetchRun vars responses = fetchAfter vars responses n ∧
      (∀ j, j < n → (fetchAfter vars responses j).hasNextPage = true) ∧
      (n < maxPages → (fetchAfter vars responses n).hasNextPage = false) := by
  obtain ⟨n, hn, hrun, hbefore, hstop⟩ := fetchLoop_spec vars responses maxPages 0
  simp only [Nat.zero_add] at hrun hbefore hstop
  refine ⟨n, hn, hrun, fun j hj => (hbefore j hj).1, fun hlt => ?_⟩
  rcases hstop with h | h
  · omega
  · cases hf : (fetchAfter vars responses n).hasNextPage with
    | false => rfl
    | true => exact absurd ⟨hf, hlt⟩ h

/-- The loop has stopped for good after `maxPages` iterations of fuel: its
condition is false in the state `fetchRun` returns, so more fuel changes
nothing. -/
theorem fetchRun_stable (vars : Variables) (responses : Nat → QueryResult) (extra : Nat) :
    fetchLoop responses (maxPages + extra) (fetchStart vars) = fetchRun vars responses := by
  obtain ⟨n, hn, hrun, hbefore, hstop⟩ := fetchLoop_spec vars responses maxPages 0
  obtain ⟨m, hm, hrun2, hbefore2, hstop2⟩ := fetchLoop_spec vars responses (maxPages + extra) 0
  simp only [Nat.zero_add] at hrun hbefore hstop hrun2 hbefore2 hstop2
  have h0 : fetchAfter vars responses 0 = fetchStart vars := rfl
  rw [fetchRun, ← h0, hrun, hrun2]
  have hmle : m ≤ maxPages := by
    by_contra hgt
    have := (hbefore2 maxPages (by omega)).2
    omega
  have hnm : n = m := by
    rcases Nat.lt_trichotomy n m with h | h | h
    · exfalso
      rcases hstop with h1 | h1
      · omega
      · exact h1 (hbefore2 n h)
    · exact h
    · exfalso
      rcases hstop2 with h1 | h1
      · omega
      · exact h1 (hbefore m h)
  rw [hnm]

end GitHub

namespace GitHub

/-! ## The pager: which requests are sent and when it stops -/

theorem fetchRun_requests (vars : Variables) (responses : Nat → QueryResult) :
    ∃ n, n ≤ maxPages ∧
      graphqlFetch vars responses = (List.range n).map (fun i => markPullRequests (responses i)) ∧
      requestsSent vars responses = (List.range n).map (fun i => (fetchAfter vars responses i).vars) ∧
      (∀ j, j < n → (fetchAfter vars responses j).hasNextPage = true) ∧
      (n < maxPages → (fetchAfter vars responses n).hasNextPage = false) := by
  obtain ⟨n, hn, hrun, hbefore, hstop⟩ := fetchRun_spec vars responses
  exact ⟨n, hn, by rw [graphqlFetch, hrun, fetchAfter_data],
    by rw [requestsSent, hrun, fetchAfter_sent], hbefore, hstop⟩

theorem Variables.set_apply (vars : Variables) (key : String) (value : JSValue) (k : String) :
    vars.set key value k = if k = key then value else vars k := rfl

theorem fetchIteration_stars (responses : Nat → QueryResult) (st : FetchState) :
    (fetchIteration responses st).vars "stars" = st.vars "stars" := by
  simp only [fetchIteration, onPullRequests, onIssues, onStargazers]
  cases (responses st.currentPage).pullRequests <;> cases (responses st.currentPage).issues <;>
    cases (responses st.currentPage).stargazers <;>
    simp only [] <;> (try split) <;> (try split) <;> simp [Variables.set_apply]

theorem fetchAfter_stars (vars : Variables) (responses : Nat → QueryResult) (k : Nat) :
    (fetchAfter vars responses k).vars "stars" = vars "stars" := by
  induction k with
  | zero => rfl
  | succ k ih => rw [fetchAfter, fetchIteration_stars, ih]

theorem fetchIteration_issues_off (responses : Nat → QueryResult) (st : FetchState)
    (h : st.vars "issues" = JSValue.bool false) :
    (fetchIteration responses st).vars "issues" = JSValue.bool false := by
  simp only [fetchIteration, onPullRequests, onIssues, onStargazers]
  cases (responses st.currentPage).pullRequests <;> cases (responses st.currentPage).issues <;>
    cases (responses st.currentPage).stargazers <;>
    simp only [] <;> (try split) <;> (try split) <;> simp [Variables.set_apply, h]

theorem fetchIteration_issues_null (responses : Nat → QueryResult) (st : FetchState)
    (issueData : IssueResult) (hi : (responses st.currentPage).issues = some issueData)
    (hnull : issueData.pageInfo.endCursor = JSValue.null) :
    (fetchIteration responses st).vars "issues" = JSValue.bool false := by
  simp only [fetchIteration, onPullRequests, onIssues, onStargazers, hi, hnull]
  cases (responses st.currentPage).pullRequests <;>
    cases (responses st.currentPage).stargazers <;>
    simp only [] <;> (try split) <;> (try split) <;> simp_all [Variables.set_apply]

theorem fetchAfter_issues_off (vars : Variables) (responses : Nat → QueryResult)
    (i : Nat) (issueData : IssueResult) (hi : (responses i).issues = some issueData)
    (hnull : issueData.pageInfo.endCursor = JSValue.null) (d : Nat) :
    (fetchAfter vars responses (i + 1 + d)).vars "issues" = JSValue.bool false := by
  induction d with
  | zero =>
    apply fetchIteration_issues_null responses _ issueData
    · rw [fetchAfter_currentPage]; exact hi
    · exact hnull
  | succ d ih => exact fetchIteration_issues_off responses _ ih

theorem fetchAfter_hasNextPage_false (vars : Variables) (responses : Nat → QueryResult)
    (k : Nat) (h : (fetchAfter vars responses k).hasNextPage = false) :
    ∃ i, i < k ∧
      ((∃ starData, (responses i).stargazers = some starData ∧
          starData.pageInfo.hasNextPage = false) ∨
        (∃ issueData, (responses i).issues = some issueData ∧
          issueData.pageInfo.hasNextPage = false) ∨
        (∃ pullRequestData, (responses i).pullRequests = some pullRequestData ∧
          pullRequestData.pageInfo.hasNextPage = false)) := by
  induction k with
  | zero => simp [fetchAfter, fetchStart] at h
  | succ k ih =>
    rw [fetchAfter_hasNextPage_succ] at h
    cases hp : (responses k).pullRequests with
    | some pullRequestData =>
      rw [hp] at h
      exact ⟨k, Nat.lt_succ_self k, Or.inr (Or.inr ⟨pullRequestData, hp, h⟩)⟩
    | none =>
      cases hi : (responses k).issues with
      | some issueData =>
        rw [hp, hi] at h
        exact ⟨k, Nat.lt_succ_self k, Or.inr (Or.inl ⟨issueData, hi, h⟩)⟩
      | none =>
        cases hs : (responses k).stargazers with
        | some starData =>
          rw [hp, hi, hs] at h
          exact ⟨k, Nat.lt_succ_self k, Or.inl ⟨starData, hs, h⟩⟩
        | none =>
          rw [hp, hi, hs] at h
          obtain ⟨i, hik, hres⟩ := ih h
          exact ⟨i, Nat.lt_succ_of_lt hik, hres⟩

/-- C1, as the code has it.  In one `graphqlFetch`, for every sequence of
server responses: once the response to request `i` holds issues with a `null`
end cursor, every later request `j` carries the variable `issues` as `false`,
hence not true.  The variable `stars`, which gates the stargazers, is never
written: every request carries the value the fetch started with. -/
theorem null_issues_cursor_turns_issues_off (vars : Variables)
    (responses : Nat → QueryResult) :
    (∀ (i j : Nat) (issueData : IssueResult) (request : Variables),
        (responses i).issues = some issueData →
        issueData.pageInfo.endCursor = JSValue.null →
        i < j →
        (requestsSent vars responses)[j]? = some request →
        request "issues" = JSValue.bool false) ∧
    (∀ (j : Nat) (request : Variables),
        (requestsSent vars responses)[j]? = some request →
        request "stars" = vars "stars") := by
  obtain ⟨n, -, -, hsent, -, -⟩ := fetchRun_requests vars responses
  constructor
  · intro i j issueData request hi hnull hij hreq
    rw [hsent, List.getElem?_map] at hreq
    cases hr : (List.range n)[j]? with
    | none => rw [hr] at hreq; simp at hreq
    | some m =>
      rw [hr] at hreq
      have hm : m = j := by
        by_cases hjn : j < n
        · rw [List.getElem?_range hjn] at hr; exact (Option.some.inj hr).symm
        · rw [List.getElem?_eq_none (by simpa using hjn)] at hr; cases hr
      subst hm
      simp only [Option.map_some', Option.some.injEq] at hreq
      subst hreq
      obtain ⟨d, rfl⟩ : ∃ d, m = i + 1 + d := ⟨m - (i + 1), by omega⟩
      exact fetchAfter_issues_off vars responses i issueData hi hnull d
  · intro j request hreq
    rw [hsent, List.getElem?_map] at hreq
    cases hr : (List.range n)[j]? with
    | none => rw [hr] at hreq; simp at hreq
    | some m =>
      rw [hr] at hreq
      simp only [Option.map_some', Option.some.injEq] at hreq
      subst hreq
      exact fetchAfter_stars vars responses m

/-- C1 at a concrete server: the first response holds issues with a `null`
end cursor, and the second request carries `issues` as `false` and `stars` as
it was given. -/
theorem null_issues_cursor_turns_issues_off_witness :
    ((nullIssueServer 0).issues.map fun issueData => issueData.pageInfo.endCursor)
        = some JSValue.null ∧
      ((requestsSent togglesOn nullIssueServer)[1]?.map fun request => request "issues")
        = some (JSValue.bool false) ∧
      ((requestsSent togglesOn nullIssueServer)[1]?.map fun request => request "stars")
        = some (togglesOn "stars") := by
  refine ⟨by decide, ?_⟩
  cases h : (requestsSent togglesOn nullIssueServer)[1]? with
  | none =>
    have hsome : ((requestsSent togglesOn nullIssueServer)[1]?).isSome = true := by decide
    rw [h] at hsome
    cases hsome
  | some request =>
    have hissues := (null_issues_cursor_turns_issues_off togglesOn nullIssueServer).1
      0 1 ⟨0, ⟨JSValue.null, true⟩, []⟩ request rfl rfl (by decide) h
    have hstars := (null_issues_cursor_turns_issues_off togglesOn nullIssueServer).2 1 request h
    simp [hissues, hstars]

/-- C1 as stated fails for the stargazers: the first response holds
stargazers with a `null` end cursor, and the second request still carries
`stars` as `true`. -/
theorem null_star_cursor_keeps_stars_on :
    ((nullStarServer 0).stargazers.map fun starData => starData.pageInfo.endCursor)
        = some JSValue.null ∧
      ((requestsSent togglesOn nullStarServer)[1]?.map fun request => request "stars")
        = some (JSValue.bool true) := by
  decide

/-- C2, as the code has it.  After the response to request `k` (counted from
0), with fewer than 10 requests made, the pager sends another request exactly
when the deciding resource of that response reports `hasNextPage = true`: the
pull requests if the response holds them, else the issues if it holds them,
else the stargazers; a response that holds none of the three is always
followed by another request.  Neither the toggles nor a `null` cursor enter
the decision. -/
theorem next_request_iff_last_resource_has_next (vars : Variables)
    (responses : Nat → QueryResult) (k : Nat)
    (hk : k < (graphqlFetch vars responses).length) (hcap : k + 1 < maxPages) :
    (k + 1 < (graphqlFetch vars responses).length ↔
      match (responses k).pullRequests, (responses k).issues, (responses k).stargazers with
      | some pullRequestData, _, _ => pullRequestData.pageInfo.hasNextPage = true
      | none, some issueData, _ => issueData.pageInfo.hasNextPage = true
      | none, none, some starData => starData.pageInfo.hasNextPage = true
      | none, none, none => True) := by
  obtain ⟨n, hn, hdata, -, hbefore, hstop⟩ := fetchRun_requests vars responses
  have hlen : (graphqlFetch vars responses).length = n := by simp [hdata]
  rw [hlen] at hk ⊢
  have hflag : (k + 1 < n ↔ (fetchAfter vars responses (k + 1)).hasNextPage = true) := by
    constructor
    · exact hbefore (k + 1)
    · intro htrue
      by_contra hnot
      have hnk : n = k + 1 := by omega
      have := hstop (by omega)
      rw [hnk, htrue] at this
      cases this
  rw [hflag, fetchAfter_hasNextPage_succ]
  cases (responses k).pullRequests <;> cases (responses k).issues <;>
    cases (responses k).stargazers <;> simp [hbefore k hk]

/-- C2 at a concrete server: the first response holds issues only, with
`hasNextPage` true, and a second request follows. -/
theorem next_request_iff_last_resource_has_next_witness :
    0 < (graphqlFetch togglesOn nullIssueServer).length ∧ 0 + 1 < maxPages ∧
      0 + 1 < (graphqlFetch togglesOn nullIssueServer).length :=
  ⟨by decide, by decide,
    (next_request_iff_last_resource_has_next togglesOn nullIssueServer 0
      (by decide) (by decide)).mpr rfl⟩

/-- C2 as stated fails: the first response reports `hasNextPage = true` for
the issues, with a cursor that is not `null` and the toggle `issues` still
true, and yet the pager stops after this one request, because the pull
requests of the same response report `hasNextPage = false`. -/
theorem pager_stops_while_issues_have_next_page :
    ((threeIssuesOnePull 0).issues.map fun issueData => issueData.pageInfo)
        = some ⟨JSValue.str "Y3Vyc29yOjE", true⟩ ∧
      (fetchRun togglesOn threeIssuesOnePull).vars "issues" = JSValue.bool true ∧
      (graphqlFetch togglesOn threeIssuesOnePull).length = 1 := by
  decide

/-- C3.  For every initial variable map and every sequence of server
responses, the page list of `graphqlFetch` has at most 10 entries; its entry
`i` is the response to request `i`, the pull-request nodes of which
`graphqlFetch` has marked in place; and when it has fewer than 10 entries,
some resource present in one of these responses reported
`hasNextPage = false`.  What the mark leaves of a response: the issues and
the stargazers of entry `i` are those of response `i`, and its pull requests
are those of response `i`, present or missing alike, with the same
`totalCount` and `pageInfo` and the same nodes in the same order, each node
unchanged but for `is_pull_request`, which is `true`. -/
theorem page_list_bounded_and_in_order (vars : Variables) (responses : Nat → QueryResult) :
    (graphqlFetch vars responses).length ≤ 10 ∧
    graphqlFetch vars responses
      = (List.range (graphqlFetch vars responses).length).map
          (fun i => markPullRequests (responses i)) ∧
    ((graphqlFetch vars responses).length < 10 →
      ∃ i, i < (graphqlFetch vars responses).length ∧
        ((∃ starData, (responses i).stargazers = some starData ∧
            starData.pageInfo.hasNextPage = false) ∨
          (∃ issueData, (responses i).issues = some issueData ∧
            issueData.pageInfo.hasNextPage = false) ∨
          (∃ pullRequestData, (responses i).pullRequests = some pullRequestData ∧
            pullRequestData.pageInfo.hasNextPage = false))) ∧
    (∀ (i : Nat) (page : QueryResult), (graphqlFetch vars responses)[i]? = some page →
      page.issues = (responses i).issues ∧
      page.stargazers = (responses i).stargazers ∧
      page.pullRequests = (responses i).pullRequests.map fun pullRequestData =>
        { totalCount := pullRequestData.totalCount
          pageInfo := pullRequestData.pageInfo
          nodes := pullRequestData.nodes.map fun pr =>
            { is_pull_request := some true
              number := pr.number
              title := pr.title
              closed := pr.closed
              url := pr.url
              author := pr.author
              labels := pr.labels
              milestone := pr.milestone
              locked := pr.locked
              comments := pr.comments
              created_at := pr.created_at
              closed_at := pr.closed_at } }) := by
  obtain ⟨n, hn, hdata, -, -, hstop⟩ := fetchRun_requests vars responses
  have hlen : (graphqlFetch vars responses).length = n := by simp [hdata]
  rw [hlen]
  refine ⟨hn, hdata, fun hlt => ?_, fun i page hpage => ?_⟩
  · exact fetchAfter_hasNextPage_false vars responses n (hstop hlt)
  · rw [hdata, List.getElem?_map] at hpage
    cases hr : (List.range n)[i]? with
    | none => rw [hr] at hpage; simp at hpage
    | some m =>
      have hm : m = i := by
        by_cases hin : i < n
        · rw [List.getElem?_range hin] at hr; exact (Option.some.inj hr).symm
        · rw [List.getElem?_eq_none (by simpa using hin)] at hr; cases hr
      subst hm
      rw [hr] at hpage
      simp only [Option.map_some', Option.some.injEq] at hpage
      subst hpage
      refine ⟨rfl, rfl, ?_⟩
      cases hp : (responses m).pullRequests <;> simp [markPullRequests, hp]

/-- C3 at a concrete server: one page is returned, fewer than 10, which is the
response with its pull request marked, and a resource of a response reported
`hasNextPage = false`. -/
theorem page_list_bounded_and_in_order_witness :
    graphqlFetch togglesOn threeIssuesOnePull
      = [{ issues := some ⟨3, ⟨JSValue.str "Y3Vyc29yOjE", true⟩,
              [{ number := some ⟨1, by decide⟩ }]⟩
           pullRequests := some ⟨1, ⟨JSValue.str "Y3Vyc29yOjI", false⟩,
              [{ number := some ⟨2, by decide⟩, is_pull_request := some true }]⟩ }] ∧
    (graphqlFetch togglesOn threeIssuesOnePull).length < 10 ∧
      ∃ i, i < (graphqlFetch togglesOn threeIssuesOnePull).length ∧
        ((∃ starData, (threeIssuesOnePull i).stargazers = some starData ∧
            starData.pageInfo.hasNextPage = false) ∨
          (∃ issueData, (threeIssuesOnePull i).issues = some issueData ∧
            issueData.pageInfo.hasNextPage = false) ∨
          (∃ pullRequestData, (threeIssuesOnePull i).pullRequests = some pullRequestData ∧
            pullRequestData.pageInfo.hasNextPage = false)) :=
  ⟨by decide, by decide,
    (page_list_bounded_and_in_order togglesOn threeIssuesOnePull).2.2.1 (by decide)⟩

end GitHub

namespace GitHub

/-! ## `getVariables` and `getGroup` -/

theorem foldl_set_apply (requestedFields : List Field) (vars : Variables) (k : String) :
    requestedFields.foldl (fun vars field => vars.set field.id (JSValue.bool true)) vars k
      = if k ∈ requestedFields.map Field.id then JSValue.bool true else vars k := by
  induction requestedFields generalizing vars with
  | nil => simp
  | cons field rest ih =>
    rw [List.foldl_cons, ih, Variables.set_apply]
    by_cases h1 : k ∈ rest.map Field.id
    · simp [h1]
    · by_cases h2 : k = field.id
      · simp [h2]
      · simp [h1, h2]

theorem getVariables_apply (group : String) (configParams : GHConfigParams)
    (requestedFields : List Field) (k : String) :
    getVariables group configParams requestedFields k
      = if k ∈ requestedFields.map Field.id then JSValue.bool true
        else if k = group then JSValue.bool true
        else configVariables configParams k := by
  rw [getVariables, foldl_set_apply, Variables.set_apply]

theorem configVariables_not_bool (configParams : GHConfigParams) (k : String) (b : Bool) :
    configVariables configParams k ≠ JSValue.bool b := by
  unfold configVariables
  split
  · simp
  · split <;> simp

theorem getFields_ids_not_config :
    ∀ f ∈ getFields, f.id ≠ "organization" ∧ f.id ≠ "repository" := by
  decide

/-- C4.  For a group `g` that is `issues` or `stargazers`, every config and
every list of requested fields, all fields of `getFields` of group `g`: the
keys that `getVariables` maps to a boolean are exactly `g` and the ids of the
requested fields, each of them is mapped to `true`, and `organization` and
`repository` hold the strings of the config. -/
theorem getVariables_toggles (g : String) (hg : g = "issues" ∨ g = "stargazers")
    (configParams : GHConfigParams) (requestedFields : List Field)
    (hfields : ∀ f ∈ requestedFields, f ∈ getFields ∧ f.group = g) :
    (∀ k, (∃ b, getVariables g configParams requestedFields k = JSValue.bool b)
        ↔ (k = g ∨ k ∈ requestedFields.map Field.id)) ∧
    (∀ k b, getVariables g configParams requestedFields k = JSValue.bool b → b = true) ∧
    getVariables g configParams requestedFields "organization"
      = JSValue.str configParams.organization ∧
    getVariables g configParams requestedFields "repository"
      = JSValue.str configParams.repository := by
  have hids : ∀ k ∈ requestedFields.map Field.id, k ≠ "organization" ∧ k ≠ "repository" := by
    intro k hk
    obtain ⟨f, hf, rfl⟩ := List.mem_map.mp hk
    exact getFields_ids_not_config f (hfields f hf).1
  have hgorg : ("organization" : String) ≠ g := by
    rcases hg with h | h <;> rw [h] <;> decide
  have hgrepo : ("repository" : String) ≠ g := by
    rcases hg with h | h <;> rw [h] <;> decide
  refine ⟨fun k => ?_, fun k b => ?_, ?_, ?_⟩
  · rw [getVariables_apply]
    by_cases h1 : k ∈ requestedFields.map Field.id
    · simp [h1]
    · by_cases h2 : k = g
      · simp [h2]
      · rw [if_neg h1, if_neg h2]
        constructor
        · rintro ⟨b, hb⟩
          exact absurd hb (configVariables_not_bool configParams k b)
        · rintro (h | h)
          · exact absurd h h2
          · exact absurd h h1
  · rw [getVariables_apply]
    by_cases h1 : k ∈ requestedFields.map Field.id
    · simp only [if_pos h1]; intro h; cases h; rfl
    · by_cases h2 : k = g
      · simp only [if_neg h1, if_pos h2]; intro h; cases h; rfl
      · rw [if_neg h1, if_neg h2]
        intro h
        exact absurd h (configVariables_not_bool configParams k b)
  · rw [getVariables_apply, if_neg (fun h => (hids _ h).1 rfl), if_neg hgorg]
    simp [configVariables]
  · rw [getVariables_apply, if_neg (fun h => (hids _ h).2 rfl), if_neg hgrepo]
    simp [configVariables]

/-- C4 at a concrete request: the fields `number` and `title` of the group
`issues`. -/
theorem getVariables_toggles_witness :
    (∀ k, (∃ b, getVariables "issues" ⟨"googledatastudio", "community-connectors"⟩
          (getFields.take 2) k = JSValue.bool b)
        ↔ (k = "issues" ∨ k ∈ (getFields.take 2).map Field.id)) ∧
    (∀ k b, getVariables "issues" ⟨"googledatastudio", "community-connectors"⟩
          (getFields.take 2) k = JSValue.bool b → b = true) ∧
    getVariables "issues" ⟨"googledatastudio", "community-connectors"⟩ (getFields.take 2)
        "organization" = JSValue.str "googledatastudio" ∧
    getVariables "issues" ⟨"googledatastudio", "community-connectors"⟩ (getFields.take 2)
        "repository" = JSValue.str "community-connectors" :=
  getVariables_toggles "issues" (Or.inl rfl) ⟨"googledatastudio", "community-connectors"⟩
    (getFields.take 2) (by decide)

end GitHub

namespace GitHub

theorem getGroupLoop_same (g : String) (hg : g ≠ "") (rest : List Field)
    (hrest : ∀ f ∈ rest, f.group = g) :
    getGroupLoop (some g) rest = Except.ok (some g) := by
  induction rest with
  | nil => rfl
  | cons field rest ih =>
    have hfield : field.group = g := hrest field (List.mem_cons_self _ _)
    rw [getGroupLoop, if_neg (by simp [hg]), if_neg (by simp [hfield])]
    exact ih fun f hf => hrest f (List.mem_cons_of_mem _ hf)

theorem getGroupLoop_other (g : String) (hg : g ≠ "") (rest : List Field) (other : Field)
    (hother : rest.find? (fun f => decide (f.group ≠ g)) = some other) :
    getGroupLoop (some g) rest
      = Except.error (ConnectorError.userError (sameGroupText g other.group) none) := by
  induction rest with
  | nil => simp at hother
  | cons field rest ih =>
    rw [getGroupLoop, if_neg (by simp [hg])]
    by_cases hfield : field.group = g
    · rw [if_neg (by simp [hfield])]
      apply ih
      rw [List.find?_cons] at hother
      simpa [hfield] using hother
    · rw [List.find?_cons] at hother
      simp only [ne_eq, hfield, not_false_eq_true, decide_True, Option.some.injEq] at hother
      subst hother
      rw [if_pos (by simpa using fun h => hfield h.symm)]
      rfl

/-- C5.  Let the requested fields be `first :: rest`, each with its group set
(not empty), as every field of `getFields` has it.  If two of them have
different groups, then `rest` has a first field `other` whose group differs
from that of `first`, `getGroup` raises the user error whose text names the
group of `first` and the group of `other`, and `getData` sends no request
(with a blank organization or repository `validateConfig` has already raised;
otherwise `getData` raises this error of `getGroup`).  If the list is not
empty and all its fields share the group `g`, `issues` or `stargazers`, then
`getGroup` returns `g`. -/
theorem getGroup_one_group_or_error (requestedFields : List Field) :
    (∀ first rest, requestedFields = first :: rest →
      (∀ f ∈ requestedFields, f.group ≠ "") →
      (∃ a ∈ requestedFields, ∃ b ∈ requestedFields, a.group ≠ b.group) →
      ∃ other, rest.find? (fun f => decide (f.group ≠ first.group)) = some other ∧
        getGroup requestedFields
          = Except.error
              (ConnectorError.userError (sameGroupText first.group other.group) none) ∧
        ∀ (configParams : GHConfigParams) (responses : Nat → QueryResult),
          (getData configParams requestedFields responses).1 = [] ∧
          (validateConfig configParams = Except.ok true →
            (getData configParams requestedFields responses).2
              = Except.error
                  (ConnectorError.userError (sameGroupText first.group other.group) none))) ∧
    (∀ g, g = "issues" ∨ g = "stargazers" → requestedFields ≠ [] →
      (∀ f ∈ requestedFields, f.group = g) → getGroup requestedFields = Except.ok g) := by
  constructor
  · intro first rest hlist hset hmixed
    subst hlist
    have hfirst : first.group ≠ "" := hset first (List.mem_cons_self _ _)
    have hex : ∃ c ∈ rest, c.group ≠ first.group := by
      by_contra hnone
      have hall : ∀ c ∈ first :: rest, c.group = first.group := by
        intro c hc
        rcases List.mem_cons.mp hc with h | h
        · rw [h]
        · by_contra hne
          exact hnone ⟨c, h, hne⟩
      obtain ⟨a, ha, b, hb, hab⟩ := hmixed
      exact hab ((hall a ha).trans (hall b hb).symm)
    obtain ⟨c, hc, hcne⟩ := hex
    cases hfind : rest.find? (fun f => decide (f.group ≠ first.group)) with
    | none =>
      have := List.find?_eq_none.mp hfind c hc
      simp [hcne] at this
    | some other =>
      have hloop : getGroupLoop none (first :: rest)
          = Except.error
              (ConnectorError.userError (sameGroupText first.group other.group) none) := by
        rw [getGroupLoop, if_pos (Or.inl rfl)]
        exact getGroupLoop_other first.group hfirst rest other hfind
      have hgroup : getGroup (first :: rest)
          = Except.error
              (ConnectorError.userError (sameGroupText first.group other.group) none) := by
        rw [getGroup, hloop]
      refine ⟨other, rfl, hgroup, fun configParams responses => ?_⟩
      constructor
      · unfold getData
        cases validateConfig configParams with
        | error e => rfl
        | ok v => simp only [hgroup]
      · intro hvalid
        unfold getData
        simp only [hvalid, hgroup]
  · intro g hg hne hall
    cases requestedFields with
    | nil => exact absurd rfl hne
    | cons first rest =>
      have hgne : g ≠ "" := by rcases hg with h | h <;> rw [h] <;> decide
      have hfirst : first.group = g := hall first (List.mem_cons_self _ _)
      have hloop : getGroupLoop none (first :: rest) = Except.ok (some g) := by
        rw [getGroupLoop, if_pos (Or.inl rfl), hfirst]
        exact getGroupLoop_same g hgne rest fun f hf => hall f (List.mem_cons_of_mem _ hf)
      rw [getGroup, hloop]
      rcases hg with h | h <;> subst h <;> rfl

end GitHub

namespace GitHub

/-- C5 at a concrete request: the fields `number` (group `issues`) and
`starred_at` (group `stargazers`) make `getGroup` raise the error that names
both groups, and `getData` raise it with no request sent; the fields `number`,
`title`, `open` give the group `issues`. -/
theorem getGroup_one_group_or_error_witness :
    getGroup numberAndStarredAt
        = Except.error (ConnectorError.userError
            "You can only choose fields in the same group. You chose fields from \"issues\" and \"stargazers\""
            none) ∧
      (getData sampleConfig numberAndStarredAt threeIssuesOnePull).1 = [] ∧
      (getData sampleConfig numberAndStarredAt threeIssuesOnePull).2
        = Except.error (ConnectorError.userError
            "You can only choose fields in the same group. You chose fields from \"issues\" and \"stargazers\""
            none) ∧
      getGroup numberTitleOpen = Except.ok "issues" := by
  obtain ⟨other, hfind, herr, hdata⟩ :=
    (getGroup_one_group_or_error numberAndStarredAt).1
      ⟨"number", "Number", ISSUES, FieldType.TEXT, false⟩
      [⟨"starred_at", "Starred Date", STARS, FieldType.YEAR_MONTH_DAY_HOUR, false⟩]
      (by decide) (by decide) (by decide)
  have hother : other = ⟨"starred_at", "Starred Date", STARS, FieldType.YEAR_MONTH_DAY_HOUR, false⟩ :=
    Option.some.inj (hfind.symm.trans (by decide))
  subst hother
  exact ⟨herr, (hdata sampleConfig threeIssuesOnePull).1,
    (hdata sampleConfig threeIssuesOnePull).2 (by decide),
    (getGroup_one_group_or_error numberTitleOpen).2 "issues" (Or.inl rfl) (by decide)
      (by decide)⟩

end GitHub

namespace GitHub

/-! ## The row mapper -/

theorem issueValue_unknown (issue : IssueNode) (id : String) (h : id ∉ issueFieldIds) :
    issueValue issue id = Except.error (cannotUse id) := by
  unfold issueValue
  unfold issueFieldIds at h
  split <;> simp_all

theorem arrayMap_first_error {α β : Type} (f : α → Except ConnectorError β)
    (before after : List α) (a : α) (e : ConnectorError)
    (hbefore : ∀ x ∈ before, (f x).toBool = true) (ha : f a = Except.error e) :
    arrayMap f (before ++ a :: after) = Except.error e := by
  induction before with
  | nil => simp [arrayMap, ha]
  | cons x before ih =>
    have hx := hbefore x (List.mem_cons_self _ _)
    have ih := ih fun y hy => hbefore y (List.mem_cons_of_mem _ hy)
    rw [List.cons_append, arrayMap]
    cases hfx : f x with
    | error e1 => rw [hfx] at hx; cases hx
    | ok b => simp only [ih]

theorem issueResultsLoop_empties (requestedFields : List Field) (rows : List GetDataRow)
    (empties : List IssueResult) (hempty : ∀ r ∈ empties, r.nodes = [])
    (rest : List (Option IssueResult)) :
    issueResultsLoop requestedFields rows (empties.map some ++ rest)
      = issueResultsLoop requestedFields rows rest := by
  induction empties with
  | nil => rfl
  | cons r empties ih =>
    have hr := hempty r (List.mem_cons_self _ _)
    rw [List.map_cons, List.cons_append, issueResultsLoop, hr]
    simp only [arrayMap, List.append_nil]
    exact ih fun x hx => hempty x (List.mem_cons_of_mem _ hx)

theorem starRows_mem (requestedFields : List Field) (starResults : List StarResult)
    (rows : List GetDataRow) (row : GetDataRow)
    (hrow : row ∈ starResults.foldl
      (fun rows starResult => rows ++ starResult.nodes.map fun stars =>
        ({ values := requestedFields.map fun requestedField =>
            starValue stars requestedField.id } : GetDataRow))
      rows) :
    row ∈ rows ∨ ∃ stars : StarNode,
      row.values = requestedFields.map fun requestedField => starValue stars requestedField.id := by
  induction starResults generalizing rows with
  | nil => exact Or.inl hrow
  | cons starResult rest ih =>
    rw [List.foldl_cons] at hrow
    rcases ih _ hrow with h | h
    · rcases List.mem_append.mp h with h1 | h1
      · exact Or.inl h1
      · obtain ⟨stars, -, rfl⟩ := List.mem_map.mp h1
        exact Or.inr ⟨stars, rfl⟩
    · exact Or.inr h

theorem issueResults_unknown_field (before after : List Field) (f : Field)
    (hf : f.id ∉ issueFieldIds) (empties : List IssueResult) (issueResult : IssueResult)
    (issue : IssueNode) (more : List IssueNode) (rest : List (Option IssueResult))
    (hempty : ∀ r ∈ empties, r.nodes = []) (hnodes : issueResult.nodes = issue :: more)
    (hbefore : ∀ g ∈ before, (issueValue issue g.id).toBool = true) :
    issueResultsToGetDataRows (empties.map some ++ some issueResult :: rest)
        (before ++ f :: after)
      = Except.error (cannotUse f.id) := by
  rw [issueResultsToGetDataRows, issueResultsLoop_empties _ _ _ hempty, issueResultsLoop, hnodes]
  have hrow : issueRow (before ++ f :: after) issue = Except.error (cannotUse f.id) := by
    rw [issueRow, arrayMap_first_error _ before after f (cannotUse f.id) hbefore
      (issueValue_unknown issue f.id hf)]
  simp only [arrayMap, hrow]

theorem issueResults_no_record (requestedFields : List Field) (empties : List IssueResult)
    (hempty : ∀ r ∈ empties, r.nodes = []) :
    issueResultsToGetDataRows (empties.map some) requestedFields = Except.ok [] := by
  have := issueResultsLoop_empties requestedFields [] empties hempty []
  rw [List.append_nil] at this
  rw [issueResultsToGetDataRows, this]
  rfl

theorem collect_foldl_acc (pages : List QueryResult) (acc : List (Option IssueResult)) :
    pages.foldl
        (fun issueResults queryResult =>
          let issueResults := issueResults ++ [queryResult.issues]
          match queryResult.pullRequests with
          | some pullRequests => issueResults ++ [some pullRequests]
          | none => issueResults)
        acc
      = acc ++ collectIssueResults pages := by
  induction pages generalizing acc with
  | nil => simp [collectIssueResults]
  | cons q qs ih =>
    rw [collectIssueResults, List.foldl_cons, List.foldl_cons, ih, ih (_ : List _)]
    cases q.pullRequests <;> simp

theorem collectIssueResults_cons (q : QueryResult) (qs : List QueryResult) :
    collectIssueResults (q :: qs)
      = q.issues :: ((q.pullRequests.map some).toList ++ collectIssueResults qs) := by
  rw [collectIssueResults, List.foldl_cons, collect_foldl_acc]
  cases q.pullRequests <;> simp

theorem collectIssueResults_append (ps qs : List QueryResult) :
    collectIssueResults (ps ++ qs) = collectIssueResults ps ++ collectIssueResults qs := by
  induction ps with
  | nil => simp [collectIssueResults]
  | cons p ps ih => simp [collectIssueResults_cons, ih]

theorem collectIssueResults_no_record (pages : List QueryResult)
    (hissues : ∀ p ∈ pages, ∃ r, p.issues = some r ∧ r.nodes = [])
    (hpulls : ∀ p ∈ pages, ∀ r, p.pullRequests = some r → r.nodes = []) :
    ∃ empties : List IssueResult,
      collectIssueResults pages = empties.map some ∧ ∀ r ∈ empties, r.nodes = [] := by
  induction pages with
  | nil => exact ⟨[], rfl, fun r hr => absurd hr (List.not_mem_nil r)⟩
  | cons p ps ih =>
    obtain ⟨empties, hcollect, hempty⟩ :=
      ih (fun q hq => hissues q (List.mem_cons_of_mem _ hq))
        (fun q hq => hpulls q (List.mem_cons_of_mem _ hq))
    obtain ⟨r, hr, hrnodes⟩ := hissues p (List.mem_cons_self _ _)
    rw [collectIssueResults_cons, hcollect, hr]
    cases hp : p.pullRequests with
    | none =>
      refine ⟨r :: empties, by simp, ?_⟩
      intro x hx
      rcases List.mem_cons.mp hx with h | h
      · rw [h]; exact hrnodes
      · exact hempty x h
    | some pr =>
      have hprnodes := hpulls p (List.mem_cons_self _ _) pr hp
      refine ⟨r :: pr :: empties, by simp, ?_⟩
      intro x hx
      rcases List.mem_cons.mp hx with h | h
      · rw [h]; exact hrnodes
      · rcases List.mem_cons.mp h with h | h
        · rw [h]; exact hprnodes
        · exact hempty x h

theorem toGetDataRows_issue_pages (first : QueryResult) (others : List QueryResult)
    (requestedFields : List Field) (hstars : first.stargazers = none)
    (hissues : first.issues.isSome = true) :
    toGetDataRows (first :: others) requestedFields
      = issueResultsToGetDataRows (collectIssueResults (first :: others)) requestedFields := by
  rw [toGetDataRows]
  simp only [hstars, Option.isSome_none, Bool.false_eq_true, if_false]
  rw [if_pos (Or.inl hissues)]

/-- C6, as the code has it.  Let the requested fields be
`before ++ f :: after`.

Issue and pull-request records: if `f` has no `case` in the `switch` of
`issueResultsToGetDataRows`, the first record of the result list yields a
value for every field of `before`, and the results in front of the one that
holds it are empty, then `issueResultsToGetDataRows` raises the user error
`You cannot use <id of f> yet.`; with no record at all it returns no row and
raises nothing.  `toGetDataRows` raises the same user error for a page list
whose first page holds no stargazers, when each page up to the one with the
first record holds issues and that record, the first of the issues of its
page or, these being empty, of its pull requests, yields a value for every
field of `before`; and it returns no row and raises nothing when every page
holds issues and no page holds a record.

Stargazer records: if the id of `f` is neither `stars` nor `starred_at`, every
row of `starResultsToGetDataRows` holds `null` at the position of `f`, and
nothing is raised: for a page list whose first page holds stargazers
`toGetDataRows` returns rows that hold `null` at the position of `f`.  For the
empty page list it returns no row. -/
theorem unknown_field_error_or_null (requestedFields before after : List Field) (f : Field)
    (hfields : requestedFields = before ++ f :: after) :
    (f.id ∉ issueFieldIds →
      ∀ (empties : List IssueResult) (issueResult : IssueResult) (issue : IssueNode)
        (more : List IssueNode) (rest : List (Option IssueResult)),
        (∀ r ∈ empties, r.nodes = []) →
        issueResult.nodes = issue :: more →
        (∀ g ∈ before, (issueValue issue g.id).toBool = true) →
        issueResultsToGetDataRows (empties.map some ++ some issueResult :: rest)
            requestedFields
          = Except.error (cannotUse f.id)) ∧
    (∀ empties : List IssueResult, (∀ r ∈ empties, r.nodes = []) →
      issueResultsToGetDataRows (empties.map some) requestedFields = Except.ok []) ∧
    (f.id ∉ issueFieldIds →
      ∀ (emptyPages : List QueryResult) (page : QueryResult) (others : List QueryResult)
        (issue : IssueNode),
        (∀ first, (emptyPages ++ [page]).head? = some first → first.stargazers = none) →
        (∀ p ∈ emptyPages, ∃ r, p.issues = some r ∧ r.nodes = []) →
        (∀ p ∈ emptyPages, ∀ r, p.pullRequests = some r → r.nodes = []) →
        ((∃ r more, page.issues = some r ∧ r.nodes = issue :: more) ∨
          (∃ r pullRequests more, page.issues = some r ∧ r.nodes = [] ∧
            page.pullRequests = some pullRequests ∧ pullRequests.nodes = issue :: more)) →
        (∀ g ∈ before, (issueValue issue g.id).toBool = true) →
        toGetDataRows (emptyPages ++ page :: others) requestedFields
          = Except.error (cannotUse f.id)) ∧
    (∀ pages : List QueryResult,
      (∀ first, pages.head? = some first → first.stargazers = none) →
      (∀ p ∈ pages, ∃ r, p.issues = some r ∧ r.nodes = []) →
      (∀ p ∈ pages, ∀ r, p.pullRequests = some r → r.nodes = []) →
      toGetDataRows pages requestedFields = Except.ok []) ∧
    (f.id ≠ "stars" → f.id ≠ "starred_at" →
      ∀ (starResults : List StarResult),
        ∀ row ∈ starResultsToGetDataRows starResults requestedFields,
          row.values[before.length]? = some JSValue.null) ∧
    (f.id ≠ "stars" → f.id ≠ "starred_at" →
      ∀ (first : QueryResult) (others : List QueryResult),
        first.stargazers.isSome = true →
        ∃ rows, toGetDataRows (first :: others) requestedFields = Except.ok rows ∧
          ∀ row ∈ rows, row.values[before.length]? = some JSValue.null) ∧
    toGetDataRows [] requestedFields = Except.ok [] := by
  subst hfields
  have hnull : f.id ≠ "stars" → f.id ≠ "starred_at" →
      ∀ (starResults : List StarResult),
        ∀ row ∈ starResultsToGetDataRows starResults (before ++ f :: after),
          row.values[before.length]? = some JSValue.null := by
    intro h1 h2 starResults row hrow
    rcases starRows_mem _ _ _ _ hrow with h | ⟨stars, hvalues⟩
    · cases h
    · rw [hvalues, List.getElem?_map, List.getElem?_append_right (le_refl _)]
      simp only [Nat.sub_self, List.getElem?_cons_zero, Option.map_some', Option.some.injEq]
      unfold starValue
      split <;> simp_all
  refine ⟨?_, ?_, ?_, ?_, hnull, ?_, rfl⟩
  · intro hf empties issueResult issue more rest hempty hnodes hbefore
    exact issueResults_unknown_field before after f hf empties issueResult issue more rest
      hempty hnodes hbefore
  · intro empties hempty
    exact issueResults_no_record _ empties hempty
  · intro hf emptyPages page others issue hfirst hissues hpulls hrecord hbefore
    obtain ⟨empties, hcollect, hempty⟩ := collectIssueResults_no_record emptyPages hissues hpulls
    have hpage : (page.issues).isSome = true := by
      rcases hrecord with ⟨r, more, hr, -⟩ | ⟨r, pr, more, hr, -, -, -⟩ <;> simp [hr]
    have hdispatch : toGetDataRows (emptyPages ++ page :: others) (before ++ f :: after)
        = issueResultsToGetDataRows (collectIssueResults (emptyPages ++ page :: others))
            (before ++ f :: after) := by
      cases emptyPages with
      | nil =>
        exact toGetDataRows_issue_pages page others _ (hfirst page rfl) hpage
      | cons e es =>
        obtain ⟨r, hr, -⟩ := hissues e (List.mem_cons_self _ _)
        exact toGetDataRows_issue_pages e (es ++ page :: others) _ (hfirst e rfl)
          (by simp [hr])
    rw [hdispatch, collectIssueResults_append, hcollect, collectIssueResults_cons]
    rcases hrecord with ⟨r, more, hr, hnodes⟩ | ⟨r, pr, more, hr, hrnodes, hpr, hnodes⟩
    · rw [hr]
      exact issueResults_unknown_field before after f hf empties r issue more _ hempty hnodes
        hbefore
    · rw [hr, hpr]
      have hempty2 : ∀ x ∈ empties ++ [r], x.nodes = [] := by
        intro x hx
        rcases List.mem_append.mp hx with h | h
        · exact hempty x h
        · rw [List.mem_singleton.mp h]; exact hrnodes
      have hlist : empties.map some ++
            some r :: ((Option.map some (some pr)).toList ++ collectIssueResults others)
          = (empties ++ [r]).map some ++ some pr :: collectIssueResults others := by
        simp
      rw [hlist]
      exact issueResults_unknown_field before after f hf (empties ++ [r]) pr issue more _
        hempty2 hnodes hbefore
  · intro pages hfirst hissues hpulls
    cases pages with
    | nil => rfl
    | cons first others =>
      obtain ⟨r, hr, -⟩ := hissues first (List.mem_cons_self _ _)
      obtain ⟨empties, hcollect, hempty⟩ :=
        collectIssueResults_no_record (first :: others) hissues hpulls
      rw [toGetDataRows_issue_pages first others _ (hfirst first rfl) (by simp [hr]), hcollect]
      exact issueResults_no_record _ empties hempty
  · intro h1 h2 first others hstars
    refine ⟨_, ?_, hnull h1 h2 (collectStarResults (first :: others))⟩
    rw [toGetDataRows, if_pos hstars]

/-- C6 at concrete data: the fields `number`, `foo` on a page that holds the
issue 42 raise `You cannot use foo yet.`, in `issueResultsToGetDataRows` and,
the record being a pull request behind empty issues, in `toGetDataRows`; on
pages without records nothing is raised. -/
theorem unknown_field_error_or_null_witness :
    issueResultsToGetDataRows [some ⟨0, ⟨JSValue.null, false⟩, []⟩, some bugPage]
        (getFields.take 1 ++ fooField :: getFields.drop 1)
      = Except.error (ConnectorError.userError "You cannot use foo yet."
          (some "Field \"foo\" has not been accounted for in code yet.")) ∧
    issueResultsToGetDataRows [some ⟨0, ⟨JSValue.null, false⟩, []⟩]
        (getFields.take 1 ++ fooField :: getFields.drop 1)
      = Except.ok [] ∧
    toGetDataRows
        [{ issues := some ⟨0, ⟨JSValue.null, false⟩, []⟩ },
          { issues := some ⟨0, ⟨JSValue.null, false⟩, []⟩, pullRequests := some bugPage }]
        (getFields.take 1 ++ fooField :: getFields.drop 1)
      = Except.error (ConnectorError.userError "You cannot use foo yet."
          (some "Field \"foo\" has not been accounted for in code yet.")) :=
  ⟨(unknown_field_error_or_null _ (getFields.take 1) (getFields.drop 1) fooField rfl).1
      (by decide) [⟨0, ⟨JSValue.null, false⟩, []⟩] bugPage bugIssue [] [] (by decide) rfl
      (by decide),
    (unknown_field_error_or_null _ (getFields.take 1) (getFields.drop 1) fooField rfl).2.1
      [⟨0, ⟨JSValue.null, false⟩, []⟩] (by decide),
    (unknown_field_error_or_null _ (getFields.take 1) (getFields.drop 1) fooField rfl).2.2.1
      (by decide) [{ issues := some ⟨0, ⟨JSValue.null, false⟩, []⟩ }]
      { issues := some ⟨0, ⟨JSValue.null, false⟩, []⟩, pullRequests := some bugPage } []
      bugIssue (by decide) (by decide) (by decide)
      (Or.inr ⟨⟨0, ⟨JSValue.null, false⟩, []⟩, bugPage, [], rfl, rfl, rfl, rfl⟩) (by decide)⟩

/-- C6 as stated fails for the stargazers: with one stargazer record and the
requested field `foo`, `starResultsToGetDataRows` returns the row `[null]`,
and `toGetDataRows` returns it without raising anything. -/
theorem star_mapper_returns_null_for_unknown_field :
    starResultsToGetDataRows [starPage] [fooField] = [⟨[JSValue.null]⟩] ∧
      toGetDataRows [{ stargazers := some starPage }] [fooField]
        = Except.ok [⟨[JSValue.null]⟩] := by
  decide

end GitHub

namespace GitHub

/-- C7 at the failing input.  For the repository without issues and with two
pull requests, `graphqlFetch` returns 10 pages, of which only the first holds
issues and pull requests.  `toGetDataRows` maps the first page alone to the
one row of the pull request, but on the first two pages, as on all 10, it
appends the missing issues of the second page as `undefined` and ends in a
`TypeError`; so does `getData`, whose first request carries `issues` as true
and whose nine later requests carry it as false. -/
theorem toGetDataRows_type_error_on_page_without_issues :
    (graphqlFetch (getVariables "issues" sampleConfig (getFields.take 1))
        noIssuesTwoPulls).length = 10 ∧
      toGetDataRows [markPullRequests (noIssuesTwoPulls 0)] (getFields.take 1)
        = Except.ok [⟨[JSValue.str "7"]⟩] ∧
      toGetDataRows [markPullRequests (noIssuesTwoPulls 0), markPullRequests (noIssuesTwoPulls 1)]
          (getFields.take 1)
        = Except.error (ConnectorError.typeError "nodes") ∧
      toGetDataRows
          (graphqlFetch (getVariables "issues" sampleConfig (getFields.take 1)) noIssuesTwoPulls)
          (getFields.take 1)
        = Except.error (ConnectorError.typeError "nodes") ∧
      (getData sampleConfig (getFields.take 1) noIssuesTwoPulls).2
        = Except.error (ConnectorError.typeError "nodes") ∧
      ((getData sampleConfig (getFields.take 1) noIssuesTwoPulls).1.map fun request =>
          request "issues")
        = JSValue.bool true :: List.replicate 9 (JSValue.bool false) := by
  decide

theorem arrayMap_ok {α β : Type} (f : α → Except ConnectorError β) (g : α → β)
    (hf : ∀ a, f a = Except.ok (g a)) (l : List α) :
    arrayMap f l = Except.ok (l.map g) := by
  induction l with
  | nil => rfl
  | cons a rest ih => simp only [arrayMap, hf, ih, List.map_cons]

theorem issueRow_numberTitleOpen (issue : IssueNode) :
    issueRow numberTitleOpen issue
      = Except.ok ⟨[JSValue.str (match issue.number with
            | none => "undefined"
            | some n => toString n.val),
          optValue JSValue.str issue.title, JSValue.bool (!(issue.closed.getD false))]⟩ := by
  simp [issueRow, arrayMap, numberTitleOpen, getFields, issueValue]

theorem issueResultsLoop_numberTitleOpen (issueResults : List IssueResult)
    (rows : List GetDataRow) :
    issueResultsLoop numberTitleOpen rows (issueResults.map some)
      = Except.ok (rows ++ (issueResults.flatMap fun r => r.nodes).map fun issue =>
          ⟨[JSValue.str (match issue.number with
              | none => "undefined"
              | some n => toString n.val),
            optValue JSValue.str issue.title, JSValue.bool (!(issue.closed.getD false))]⟩) := by
  induction issueResults generalizing rows with
  | nil => simp [issueResultsLoop]
  | cons r rest ih =>
    rw [List.map_cons, issueResultsLoop, arrayMap_ok _ _ issueRow_numberTitleOpen]
    simp only [ih, List.flatMap_cons, List.map_append, List.append_assoc]

/-- C8.  With the requested fields `number`, `title`, `open`,
`issueResultsToGetDataRows` returns one row per record of the issue results,
in order, and the row of every record with number `n`, title `t` and closed
flag `c` is made of the decimal numeral of `n`, of `t` unchanged and of the
negation of `c`; the issue `{number: 42, title: "Bug", closed: false}` yields
`["42", "Bug", true]`.  The number `n` is a safe integer, of absolute value
below `2 ^ 53`, as every number of an issue is; from `10 ^ 21` on JavaScript
would write a number with an exponent. -/
theorem number_title_open_row (issueResults : List IssueResult) :
    ∃ rows, issueResultsToGetDataRows (issueResults.map some) numberTitleOpen = Except.ok rows ∧
      rows.length = (issueResults.flatMap fun r => r.nodes).length ∧
      (∀ (i : Nat) (issue : IssueNode) (n : Int) (hn : n.natAbs < 2 ^ 53) (t : String)
          (c : Bool),
        (issueResults.flatMap fun r => r.nodes)[i]? = some issue →
        issue.number = some ⟨n, hn⟩ → issue.title = some t → issue.closed = some c →
        rows[i]? = some ⟨[JSValue.str (toString n), JSValue.str t, JSValue.bool (!c)]⟩) ∧
      issueResultsToGetDataRows [some bugPage] numberTitleOpen
        = Except.ok [⟨[JSValue.str "42", JSValue.str "Bug", JSValue.bool true]⟩] := by
  refine ⟨(issueResults.flatMap fun r => r.nodes).map fun issue =>
      ⟨[JSValue.str (match issue.number with
          | none => "undefined"
          | some n => toString n.val),
        optValue JSValue.str issue.title, JSValue.bool (!(issue.closed.getD false))]⟩,
    ?_, ?_, ?_, by decide⟩
  · rw [issueResultsToGetDataRows, issueResultsLoop_numberTitleOpen, List.nil_append]
  · simp
  · intro i issue n hn t c hi hnumber ht hc
    simp only [List.nil_append, List.getElem?_map, hi, Option.map_some', hnumber, ht, hc,
      optValue, Option.getD_some]

/-- C8 at a concrete result list: an empty page of issues, then a page with
one pull request, number 7, titled `Fix`, closed. -/
theorem number_title_open_row_witness :
    issueResultsToGetDataRows
        [some ⟨0, ⟨JSValue.null, false⟩, []⟩,
          some ⟨1, ⟨JSValue.null, false⟩,
            [{ number := some ⟨7, by decide⟩, title := some "Fix", closed := some true,
               is_pull_request := some true }]⟩]
        numberTitleOpen
      = Except.ok [⟨[JSValue.str "7", JSValue.str "Fix", JSValue.bool false]⟩] := by
  obtain ⟨rows, hrows, hlen, hrow, -⟩ := number_title_open_row
    [⟨0, ⟨JSValue.null, false⟩, []⟩,
      ⟨1, ⟨JSValue.null, false⟩,
        [{ number := some ⟨7, by decide⟩, title := some "Fix", closed := some true,
           is_pull_request := some true }]⟩]
  have h0 := hrow 0 _ 7 (by decide) "Fix" true rfl rfl rfl rfl
  match rows, hlen, h0 with
  | [row], _, h0 =>
    simp only [List.getElem?_cons_zero, Option.some.injEq] at h0
    exact hrows.trans (by rw [h0]; decide)

/-- C9.  For every string of at least 13 characters, `formatDate` returns the
10 characters at the positions 0 to 3, 5 and 6, 8 and 9, 11 and 12 of its
argument, in this order; `"2020-12-01T09:05:33Z"` gives `"2020120109"` and
`"2021-03-05T14:22:00Z"` gives `"2021030514"`. -/
theorem formatDate_picks_year_month_day_hour (date : String) (h : 13 ≤ date.data.length) :
    (formatDate date).data
        = [date.data[0], date.data[1], date.data[2], date.data[3], date.data[5], date.data[6],
            date.data[8], date.data[9], date.data[11], date.data[12]] ∧
      formatDate "2020-12-01T09:05:33Z" = "2020120109" ∧
      formatDate "2021-03-05T14:22:00Z" = "2021030514" := by
  refine ⟨?_, by decide, by decide⟩
  obtain ⟨l⟩ := date
  simp only [formatDate, slice, String.data_append]
  match l, h with
  | _ :: _ :: _ :: _ :: _ :: _ :: _ :: _ :: _ :: _ :: _ :: _ :: _ :: _, _ => simp

/-- C9 at a concrete timestamp, with minutes, seconds and a zone after the
hour. -/
theorem formatDate_picks_year_month_day_hour_witness :
    13 ≤ "1999-07-04T23:59:59+02:00".data.length ∧
      (formatDate "1999-07-04T23:59:59+02:00").data
        = ['1', '9', '9', '9', '0', '7', '0', '4', '2', '3'] :=
  ⟨by decide, (formatDate_picks_year_month_day_hour "1999-07-04T23:59:59+02:00"
    (by decide)).1.trans (by decide)⟩

end GitHub

namespace Jira

/-- C10, as the code has it.  For every date filter `d` other than `none`,
date range from `s` to `e`, non-empty project list `p` and non-empty
additional query `q` (and every host), the joined `jql` array is exactly
`d >= s AND d <= e+AND +project in (p)+AND +q`: the clauses in this order,
the five array elements joined by `+`, each `AND` element with a blank after
it; and this is the text that follows `jql=` in the search URL. -/
theorem jql_joined_with_plus (host d s e p q : String) (startAt : Nat)
    (hd : d ≠ "none") (hp : p ≠ "") (hq : q ≠ "") :
    jqlJoined ⟨host, d, some p, some q⟩ ⟨s, e⟩
        = d ++ " >= " ++ s ++ " AND " ++ d ++ " <= " ++ e ++ "+AND +project in (" ++ p
            ++ ")+AND +" ++ q ∧
      searchUrl ⟨host, d, some p, some q⟩ ⟨s, e⟩ startAt
        = "https://" ++ host ++ "/rest/api/3/search?jql="
            ++ jqlJoined ⟨host, d, some p, some q⟩ ⟨s, e⟩
            ++ "&maxResults=100&startAt=" ++ toString startAt := by
  have hlit : ∀ x : String, "+AND +" ++ ("project in (" ++ x) = "+AND +project in (" ++ x := by
    intro x
    rw [← String.append_assoc]
    congr 1
  constructor
  · simp [jqlJoined, jql, hasValue, hd, hp, hq, String.intercalate, String.intercalate.go,
      String.append_assoc, hlit]
  · simp [searchUrl, String.intercalate, String.intercalate.go, String.append_assoc]

/-- C10 at the scenario of the specification. -/
theorem jql_joined_with_plus_witness :
    jqlJoined doneInJanuary january
      = "created >= 2021-01-01 AND created <= 2021-01-31+AND +project in (ABC,DEF)+AND +status = Done" :=
  (jql_joined_with_plus "example.atlassian.net" "created" "2021-01-01" "2021-01-31" "ABC,DEF"
    "status = Done" 0 (by decide) (by decide) (by decide)).1.trans (by decide)

/-- C10 as stated fails: in the scenario of the specification the joined
`jql` array does not contain
`created >= 2021-01-01 AND created <= 2021-01-31 AND project in (ABC,DEF) AND status = Done`. -/
theorem jql_scenario_lacks_single_spaced_text :
    includes (jqlJoined doneInJanuary january)
        "created >= 2021-01-01 AND created <= 2021-01-31 AND project in (ABC,DEF) AND status = Done"
      = false := by
  decide

end Jira

namespace GitHub

/-! ## `getVariables` against the include variables of the query -/

/-- C11 at the failing inputs.  Requested alone, `starred_at` makes `getGroup`
return `stargazers`, and the first request of `graphqlFetch` carries
`stargazers` and `starred_at` as true and leaves `stars`, the variable that
gates the stargazers, unset.  The fields `open`, `reporter`, `label`,
`num_comments` give a first request with `issues` true and with `closed`,
`author`, `labels`, `comments` unset.  For every field of `getFields`
requested alone, the list gives the value of the variable of its resource and
of the variable of its data: both are true only for `number`, `title`, `url`,
`milestone`, `locked`, `created_at`, `closed_at`.  A record without `author`,
as the server sends it with `author` unset, makes the row of `reporter` end
in a `TypeError`. -/
theorem getVariables_leaves_include_variables_unset :
    getGroup starredAtOnly = Except.ok "stargazers" ∧
    ((requestsSent (getVariables "stargazers" sampleConfig starredAtOnly) nullStarServer)[0]?.map
        fun request => [request "stars", request "stargazers", request "starred_at"])
      = some [JSValue.undefined, JSValue.bool true, JSValue.bool true] ∧
    getGroup openReporterLabelComments = Except.ok "issues" ∧
    ((requestsSent (getVariables "issues" sampleConfig openReporterLabelComments)
          nullIssueServer)[0]?.map
        fun request => [request "issues", request "closed", request "author", request "labels",
          request "comments"])
      = some [JSValue.bool true, JSValue.undefined, JSValue.undefined, JSValue.undefined,
          JSValue.undefined] ∧
    (getFields.map fun f =>
        (f.id, getVariables f.group sampleConfig [f] (resourceVariable f.group),
          (includeVariable f.id).map (getVariables f.group sampleConfig [f])))
      = [("number", JSValue.bool true, some (JSValue.bool true)),
          ("title", JSValue.bool true, some (JSValue.bool true)),
          ("open", JSValue.bool true, some JSValue.undefined),
          ("url", JSValue.bool true, some (JSValue.bool true)),
          ("reporter", JSValue.bool true, some JSValue.undefined),
          ("label", JSValue.bool true, some JSValue.undefined),
          ("milestone", JSValue.bool true, some (JSValue.bool true)),
          ("locked", JSValue.bool true, some (JSValue.bool true)),
          ("num_comments", JSValue.bool true, some JSValue.undefined),
          ("is_pull_request", JSValue.bool true, none),
          ("created_at", JSValue.bool true, some (JSValue.bool true)),
          ("closed_at", JSValue.bool true, some (JSValue.bool true)),
          ("starred_at", JSValue.undefined, none),
          ("stars", JSValue.bool true, none)] ∧
    issueResultsToGetDataRows [some ⟨1, ⟨JSValue.str "Y3Vyc29yOjE", false⟩, [{}]⟩]
        (getFields.filter fun f => f.id = "reporter")
      = Except.error (ConnectorError.typeError "login") := by
  decide

end GitHub

namespace Jira

/-! ## The fetch loop of the Jira `getData` -/

theorem searchLoop_from {α : Type} (all : List α) (m : Nat) (hm : 0 < m)
    (server : Nat → SearchResponse α)
    (htotal : ∀ startAt, (server startAt).total = all.length)
    (hmax : ∀ startAt, (server startAt).maxResults = m)
    (hissues : ∀ startAt, (server startAt).issues = (all.drop startAt).take m)
    (d k : Nat) (hk : k + d = all.length / m) (total : Option Nat) (fuel : Nat)
    (hfuel : d + 1 ≤ fuel) :
    searchLoop server fuel
        { startAt := k * m, total := total, issues := all.take (k * m),
          requested := (List.range k).map fun i => i * m }
      = some
        { startAt := (all.length / m + 1) * m, total := some all.length, issues := all,
          requested := (List.range (all.length / m + 1)).map fun i => i * m } := by
  induction d generalizing k total fuel with
  | zero =>
    obtain ⟨fuel, rfl⟩ : ∃ f, fuel = f + 1 := ⟨fuel - 1, by omega⟩
    have hkeq : k = all.length / m := by omega
    have hgt : all.length < (k + 1) * m := by
      rw [hkeq]
      exact (Nat.div_lt_iff_lt_mul hm).mp (Nat.lt_succ_self _)
    have hnot : ¬ (k * m + m ≤ all.length) := by
      have : (k + 1) * m = k * m + m := Nat.succ_mul k m
      omega
    simp only [searchLoop, searchIteration, htotal, hmax, hissues, Option.getD_some, if_neg hnot]
    rw [← List.take_add, ← Nat.succ_mul, List.take_of_length_le (Nat.le_of_lt hgt), ← hkeq,
      List.range_succ, List.map_append]
    rfl
  | succ d ih =>
    obtain ⟨fuel, rfl⟩ : ∃ f, fuel = f + 1 := ⟨fuel - 1, by omega⟩
    have hle : k * m + m ≤ all.length := by
      have h1 : k + 1 ≤ all.length / m := by omega
      have h2 := (Nat.le_div_iff_mul_le hm).mp h1
      have : (k + 1) * m = k * m + m := Nat.succ_mul k m
      omega
    simp only [searchLoop, searchIteration, htotal, hmax, hissues, Option.getD_some, if_pos hle]
    have hstep := ih (k + 1) (by omega) (some all.length) fuel (by omega)
    rw [List.range_succ, List.map_append, Nat.succ_mul, List.take_add] at hstep
    exact hstep

/-- C12.  Let the server hold the issues `all`, report the total `all.length`
and the page size `m > 0` in every response, and answer a request at `startAt`
with the issues at the positions from `startAt` up to, and without,
`min (startAt + m) all.length`.  Then the fetch loop of `getData` terminates:
with `all.length / m + 1` iterations of fuel or more it ends in one and the
same state.  Its requests are at the offsets `0, m, 2 * m, ...` up to
`(all.length / m) * m`, in this order, which are exactly the multiples of `m`
that are at most `all.length`; the request at 0 is among them.  The
accumulated issues are `all`. -/
theorem search_loop_collects_all {α : Type} (all : List α) (m : Nat) (hm : 0 < m)
    (server : Nat → SearchResponse α)
    (htotal : ∀ startAt, (server startAt).total = all.length)
    (hmax : ∀ startAt, (server startAt).maxResults = m)
    (hissues : ∀ startAt, (server startAt).issues = (all.drop startAt).take m) :
    ∃ final : SearchState α,
      (∀ fuel, all.length / m + 1 ≤ fuel → searchLoop server fuel searchStart = some final) ∧
      final.requested = (List.range (all.length / m + 1)).map (fun k => k * m) ∧
      (∀ offset, offset ∈ final.requested ↔ (∃ k, offset = k * m) ∧ offset ≤ all.length) ∧
      0 ∈ final.requested ∧
      final.issues = all := by
  refine ⟨⟨(all.length / m + 1) * m, some all.length, all,
    (List.range (all.length / m + 1)).map fun i => i * m⟩, ?_, rfl, ?_, ?_, rfl⟩
  · intro fuel hfuel
    have h := searchLoop_from all m hm server htotal hmax hissues (all.length / m) 0
      (Nat.zero_add _) none fuel hfuel
    simpa [searchStart] using h
  · intro offset
    simp only [List.mem_map, List.mem_range]
    constructor
    · rintro ⟨k, hk, rfl⟩
      refine ⟨⟨k, rfl⟩, ?_⟩
      exact (Nat.le_div_iff_mul_le hm).mp (Nat.le_of_lt_succ hk)
    · rintro ⟨⟨k, rfl⟩, hle⟩
      exact ⟨k, Nat.lt_succ_of_le ((Nat.le_div_iff_mul_le hm).mpr hle), rfl⟩
  · simp only [List.mem_map, List.mem_range]
    exact ⟨0, Nat.succ_pos _, Nat.zero_mul m⟩

/-- C12 at a concrete server: four issues in pages of two.  The requests are
at 0, 2 and 4, the last of which returns no issue, and the four issues are
accumulated once each, in order. -/
theorem search_loop_collects_all_witness :
    ((searchLoop (pagedServer ["ABC-1", "ABC-2", "DEF-1", "DEF-2"] 2) 3 searchStart).map
        fun final => (final.requested, final.issues))
      = some ([0, 2, 4], ["ABC-1", "ABC-2", "DEF-1", "DEF-2"]) := by
  obtain ⟨final, hrun, hrequested, -, -, hall⟩ :=
    search_loop_collects_all ["ABC-1", "ABC-2", "DEF-1", "DEF-2"] 2 (by decide)
      (pagedServer ["ABC-1", "ABC-2", "DEF-1", "DEF-2"] 2) (fun _ => rfl) (fun _ => rfl)
      (fun _ => rfl)
  rw [hrun 3 (by decide), Option.map_some', hrequested, hall]
  rfl

end Jira
